import Mathlib

/-!
Verification of the real-time event-stream engine of `frontend/static/app.js`:
the room transcript assembler (`loadDebate` / `appendChunk` / `appendMessage` /
`appendDivider`), the global feed reducer (`processFeedEvent`, `pushFeedItem`,
`rememberDebateMeta`, `inferFeedCategory`, `topicsMatch`, `renderFeedItems`),
the loop-status bar (`updateLoopStatusBar`, `syncLoopStatus`) and the feed
WebSocket connection manager (`connectFeedWs`).  Each JavaScript function is
shallowly embedded as an executable Lean definition; ambient mutable globals
become fields of explicit state records, and DOM nodes referenced by the
module-level chunk pointer become entries of an explicit store so that
mutations of detached nodes stay observable.
-/

set_option maxHeartbeats 1000000
set_option maxRecDepth 8000
set_option linter.unnecessarySeqFocus false

/-! ## String helpers mirroring the JavaScript primitives used by app.js -/

/-- JavaScript `a || b` on strings: the empty string is falsy. -/
def jsOr (a b : String) : String := if a = "" then b else a

/-- JavaScript `a || b` where `a` is a possibly-absent (`undefined`/`null`)
string: both absence and the empty string are falsy. -/
def jsOrO (a : Option String) (b : String) : String :=
  match a with
  | none => b
  | some s => jsOr s b

/-- Truthiness of a possibly-absent string. -/
def truthyO (a : Option String) : Bool :=
  match a with
  | none => false
  | some s => !(s == "")

/-- Whitespace characters recognised by the regex `\s` (the ASCII ones, which
are the only ones relevant to the keyword tables of app.js). -/
def isWsChar (c : Char) : Bool :=
  c == ' ' || c == '\t' || c == '\n' || c == '\r' || c == '\x0b' || c == '\x0c'

/-- `replace(/\s+/g, ' ')`: collapse every run of whitespace into one space.
The boolean argument records whether the previous character was whitespace. -/
def collapseWsAux : List Char → Bool → List Char
  | [], _ => []
  | c :: rest, prev =>
    if isWsChar c then
      if prev then collapseWsAux rest true else ' ' :: collapseWsAux rest true
    else c :: collapseWsAux rest false

/-- `trim()` after whitespace collapsing: only single spaces can remain at the
ends. -/
def trimSpaces (l : List Char) : List Char :=
  ((l.dropWhile (· == ' ')).reverse.dropWhile (· == ' ')).reverse

/-- `s.startsWith(pat)`. -/
def strStarts (s pat : String) : Bool := pat.data.isPrefixOf s.data

/-- `s.includes(pat)` (substring test; the empty pattern is always found). -/
def strHasSub (s pat : String) : Bool :=
  s.data.tails.any (fun t => pat.data.isPrefixOf t)

/-- `s.slice(0, n)`. -/
def strTake (s : String) (n : Nat) : String := ⟨s.data.take n⟩

/-- `s.toLowerCase()` (ASCII case folding, which covers every keyword app.js
compares against). -/
def lowerStr (s : String) : String := ⟨s.data.map Char.toLower⟩

/-- `s.replace(pat, '')` for a plain-string pattern: remove the first
occurrence of `pat`, if any. -/
def removeOnceAux (pat : List Char) : List Char → List Char
  | [] => []
  | c :: rest =>
    if pat.isPrefixOf (c :: rest) then (c :: rest).drop pat.length
    else c :: removeOnceAux pat rest

/-- `s.replace(pat, '')` on strings. -/
def replaceOnce (s pat : String) : String := ⟨removeOnceAux pat.data s.data⟩

/-! ## `normalizedTopic`, `topicsMatch`, `inferFeedCategory` (app.js 786-809) -/

/-- `normalizedTopic(topic)`: `(topic || '').replace(/\s+/g, ' ').trim().toLowerCase()`. -/
def normalizedTopic (topic : String) : String :=
  ⟨(trimSpaces (collapseWsAux topic.data false)).map Char.toLower⟩

/-- `normalizedTopic` applied to a possibly-absent topic (`topic || ''`). -/
def normalizedTopicO (topic : Option String) : String :=
  normalizedTopic (topic.getD "")

/-- `topicsMatch(a, b)` from app.js: both sides normalized; an empty side never
matches; otherwise equality, or the 80-character truncation of either side
occurring as a substring of the other. -/
def topicsMatch (a b : String) : Bool :=
  let na := normalizedTopic a
  let nb := normalizedTopic b
  if na = "" ∨ nb = "" then false
  else
    let shortA := strTake na 80
    let shortB := strTake nb 80
    na == nb || strHasSub na shortB || strHasSub nb shortA

/-- `inferFeedCategory(topic, fallback)` from app.js: keyword classification of
the normalized topic, first match wins. -/
def inferFeedCategory (topic : String) (fallback : String) : String :=
  let t := normalizedTopic topic
  if t = "" then fallback
  else if strStarts t "breaking:" then "breaking"
  else if strHasSub t "conspiracy" || strHasSub t "sandbag" || strHasSub t "illegal" ||
      strHasSub t "loophole" then "conspiracy"
  else if strHasSub t "technical" || strHasSub t "aero" || strHasSub t "downforce" ||
      strHasSub t "drs" || strHasSub t "suspension" || strHasSub t "power unit" then "technical"
  else if strHasSub t "strategy" || strHasSub t "undercut" || strHasSub t "pit" ||
      strHasSub t "safety car" then "strategy"
  else if strHasSub t "predict" || strHasSub t "championship" || strHasSub t "who wins" ||
      strHasSub t "will " then "prediction"
  else if strHasSub t "historical" || strHasSub t "compare" || strHasSub t "era" then "historical"
  else fallback

/-- The spec's priority-ordered keyword table: `conspiracy > technical >
strategy > prediction > historical` (after the `breaking:` marker). -/
def categoryRules : List (String × List String) :=
  [("conspiracy", ["conspiracy", "sandbag", "illegal", "loophole"]),
   ("technical", ["technical", "aero", "downforce", "drs", "suspension", "power unit"]),
   ("strategy", ["strategy", "undercut", "pit", "safety car"]),
   ("prediction", ["predict", "championship", "who wins", "will "]),
   ("historical", ["historical", "compare", "era"])]

/-- Category inference as the spec words it: keyword membership checked over
`categoryRules` in fixed priority order, first match wins, no match falls to
`default`. -/
def specInferCategory (topic : String) : String :=
  let t := normalizedTopic topic
  if t = "" then "default"
  else if strStarts t "breaking:" then "breaking"
  else
    ((categoryRules.find? (fun r => r.2.any (fun k => strHasSub t k))).map Prod.fst).getD "default"

/-- Topic matching as claim C9 words it: after normalization, equality or the
80-character truncated prefix of one occurring in the other, with only the
both-empty pair excluded. -/
def specTopicsMatchClaim (a b : String) : Bool :=
  let na := normalizedTopic a
  let nb := normalizedTopic b
  if na = "" ∧ nb = "" then false
  else na == nb || strHasSub na (strTake nb 80) || strHasSub nb (strTake na 80)

/-! ## Message Assembler: the live-debate transcript (app.js 220-362)

The DOM message feed becomes an explicit state: `store` holds every bubble
ever created (so that a bubble detached by `innerHTML` resets can still be
mutated through the stale `lastChunkBubble` pointer, exactly as in the
browser), `feed` holds the indices of the bubbles currently attached to the
`#message-feed` element, in document order.  Each bubble carries a ghost
`room` tag: the value of `activeDebateId` at its creation time, used only to
attribute entries to rooms in the theorems. -/

inductive EntryKind where
  | message
  | divider
  | system
deriving DecidableEq, Repr

structure Bubble where
  room : Option Nat
  agent : String
  round : Option Nat
  text : String
  kind : EntryKind
deriving DecidableEq, Repr

structure RoomView where
  activeDebateId : Option Nat
  store : List Bubble
  feed : List Nat
  lastChunkAgent : Option String
  lastChunkBubble : Option Nat
  topic : String
deriving DecidableEq, Repr

def initRoomView : RoomView :=
  { activeDebateId := none, store := [], feed := [], lastChunkAgent := none,
    lastChunkBubble := none, topic := "" }

/-- `lastChunkBubble.textContent += t` at store index `i` (a detached bubble is
still mutated, it is just not in `feed`). -/
def appendAt : List Bubble → Nat → String → List Bubble
  | [], _, _ => []
  | b :: bs, 0, t => { b with text := b.text ++ t } :: bs
  | b :: bs, n + 1, t => b :: appendAt bs n t

/-- The key `` `${agent}-${round}` `` of `appendChunk`, with the agent
lower-cased as in `(msg.agent || '').toLowerCase()`. -/
def chunkKey (agent : String) (round : Nat) : String :=
  lowerStr agent ++ "-" ++ toString round

/-- `appendMessage(feed, msg)` (app.js 315-330): append an already-complete
bubble; the open-chunk pointer is not touched. -/
def appendMessage (s : RoomView) (agent : String) (round : Option Nat) (content : String) :
    RoomView :=
  { s with
    store := s.store ++ [⟨s.activeDebateId, agent, round, content, .message⟩],
    feed := s.feed ++ [s.store.length] }

/-- `appendChunk(feed, msg)` (app.js 335-353): if the module-level pointer
does not match `` `${agent}-${round}` `` (or is null), create a fresh empty
bubble, point at it, and append the chunk text to it (so the fresh bubble
carries the chunk text); otherwise append the chunk text to the bubble the
stale pointer still references, whether or not that bubble is in `feed`. -/
def appendChunk (s : RoomView) (agent : String) (round : Nat) (content : String) : RoomView :=
  let key := chunkKey agent round
  if s.lastChunkAgent ≠ some key ∨ s.lastChunkBubble = none then
    { s with
      store := s.store ++ [⟨s.activeDebateId, agent, some round, content, .message⟩],
      feed := s.feed ++ [s.store.length],
      lastChunkAgent := some key,
      lastChunkBubble := some s.store.length }
  else
    { s with store := appendAt s.store (s.lastChunkBubble.getD 0) content }

/-- `appendDivider(feed, label)` (app.js 355-362): reset both chunk pointers
and append a divider element. -/
def appendDivider (s : RoomView) (label : String) : RoomView :=
  { s with
    lastChunkAgent := none,
    lastChunkBubble := none,
    store := s.store ++ [⟨s.activeDebateId, "", none, label, .divider⟩],
    feed := s.feed ++ [s.store.length] }

/-- The summary bubble appended on `debate_end` (app.js 303-309). -/
def appendSystem (s : RoomView) (content : String) : RoomView :=
  { s with
    store := s.store ++ [⟨s.activeDebateId, "Summary", none, content, .system⟩],
    feed := s.feed ++ [s.store.length] }

/-- The frames of the per-room stream (app.js 266-312).  `completeMsg` covers
both `historical` and `agent_done`, which are handled identically. -/
inductive RoomMsg where
  | ping
  | completeMsg (agent : String) (round : Option Nat) (content : String)
  | agentChunk (agent : String) (round : Nat) (content : String)
  | roundStart (content : String)
  | debateStart (content : String)
  | debateEnd (verdict : Option String) (content : Option String)
deriving DecidableEq, Repr

/-- The `ws.onmessage` dispatch of `loadDebate` (app.js 266-312).  On
`debate_start` the feed is cleared (`feed.innerHTML = ''`), the topic is
rewritten and a divider is appended; on `debate_end` a divider is appended
and, when `msg.content` is truthy, a summary bubble.  The verdict panel is a
projection outside the transcript and is not modelled. -/
def dispatchRoom (s : RoomView) (m : RoomMsg) : RoomView :=
  match m with
  | .ping => s
  | .completeMsg a r c => appendMessage s a r c
  | .agentChunk a r c => appendChunk s a r c
  | .roundStart c => appendDivider s c
  | .debateStart c =>
      appendDivider { s with feed := [], topic := replaceOnce c "Debate started: " }
        "Debate Started"
  | .debateEnd _ c =>
      let s1 := appendDivider s "Debate Complete"
      match c with
      | some txt => if txt = "" then s1 else appendSystem s1 txt
      | none => s1

/-- `loadDebate(id)` (app.js 224-313), state part: set `activeDebateId`,
replace the feed contents with the loading row (detaching every existing
bubble), close the previous socket and open a new one.  Crucially it does
*not* reset `lastChunkAgent` / `lastChunkBubble` and does not detach the old
socket's `onmessage` handler. -/
def loadDebate (s : RoomView) (id : Nat) : RoomView :=
  { s with activeDebateId := some id, feed := [] }

/-! ## Feed Reducer: the global activity feed (app.js 753-952)

`feedItems`, `feedDebateMeta`, `lastLoopContext`, `feedLoopRunning` and the
loop-status label are module-level mutable state in app.js; they become the
fields of `FeedState`.  The metadata `Map` becomes an insertion-ordered
association list (JavaScript `Map` iterates in insertion order and `set` on an
existing key keeps its position). -/

def FEED_MAX_ITEMS : Nat := 200

structure DebateMeta where
  topic : String
  category : String
deriving DecidableEq, Repr

structure FeedItem where
  type : String
  debate_id : Option Nat
  topic : String
  category : String
  agent : Option String
  agents : Option (List String)
  verdict : Option String
  content : Option String
  ts : String
deriving DecidableEq, Repr

structure LoopContext where
  topic : Option String
  category : String
deriving DecidableEq, Repr

structure FeedState where
  feedItems : List FeedItem
  feedDebateMeta : List (Nat × DebateMeta)
  lastLoopContext : LoopContext
  feedLoopRunning : Bool
  loopBar : Option String
deriving DecidableEq, Repr

def initFeedState : FeedState :=
  { feedItems := [], feedDebateMeta := [], lastLoopContext := ⟨none, "default"⟩,
    feedLoopRunning := false, loopBar := none }

/-- `feedDebateMeta.get(k)` for a present key. -/
def metaLookup (m : List (Nat × DebateMeta)) (k : Nat) : Option DebateMeta :=
  (m.find? (fun p => p.fst == k)).map Prod.snd

/-- `feedDebateMeta.get(msg.debate_id)` where the id may be absent. -/
def metaLookupO (m : List (Nat × DebateMeta)) (k : Option Nat) : Option DebateMeta :=
  match k with
  | some d => metaLookup m d
  | none => none

/-- `rememberDebateMeta(debateId, topic, category)` (app.js 811-822): a falsy
id (`undefined`, `null`, `0`) is ignored; otherwise non-empty new values
overwrite, empty ones keep the cached ones; inserting past 200 entries deletes
the oldest-inserted key. -/
def rememberDebateMeta (m : List (Nat × DebateMeta)) (debateId : Option Nat)
    (topic category : String) : List (Nat × DebateMeta) :=
  match debateId with
  | none => m
  | some d =>
    if d = 0 then m
    else
      let existing := metaLookup m d
      let v : DebateMeta :=
        ⟨jsOr topic (jsOr ((existing.map DebateMeta.topic).getD "") ""),
         jsOr category (jsOr ((existing.map DebateMeta.category).getD "") "default")⟩
      let m' :=
        if m.any (fun p => p.fst == d) then
          m.map (fun p => if p.fst == d then (d, v) else p)
        else m ++ [(d, v)]
      if m'.length > FEED_MAX_ITEMS then m'.drop 1 else m'

/-- `pushFeedItem(item)` (app.js 824-829): append, then splice the front off
down to 200 items. -/
def pushFeedItem (l : List FeedItem) (item : FeedItem) : List FeedItem :=
  let l2 := l ++ [item]
  if l2.length > FEED_MAX_ITEMS then l2.drop (l2.length - FEED_MAX_ITEMS) else l2

/-- `updateLoopStatusBar(msg)` (app.js 954-979), label part: `debating` and
`cooldown` set their phase, a falsy `running` sets the paused phase, and a
truthy `running` with any other status leaves the label untouched. -/
def updateLoopStatusBar (bar : Option String) (status : Option String) (running : Option Bool) :
    Option String :=
  if status = some "debating" then some "debating"
  else if status = some "cooldown" then some "cooldown"
  else if running ≠ some true then some "paused"
  else bar

/-- A frame of the global feed stream (app.js §interfaces): one JSON object
with optional fields. -/
structure FeedMsg where
  type : String
  debate_id : Option Nat
  topic : Option String
  category : Option String
  content : Option String
  agent : Option String
  round : Option Nat
  verdict : Option String
  agent_scores : Option (List String)
  timestamp : Option String
  status : Option String
  running : Option Bool
  debates_run : Option Nat
deriving DecidableEq, Repr

/-- The predicate of the `findIndex` in the `debate_end` branch (app.js 932):
same `debate_id` and kind `debate_start` or `debate_end`. -/
def isRoomEndItem (r : Option Nat) (it : FeedItem) : Bool :=
  it.debate_id == r && (it.type == "debate_start" || it.type == "debate_end")

/-- JavaScript `findIndex`, as an optional index. -/
def findIdxO (p : α → Bool) : List α → Option Nat
  | [] => none
  | a :: l => if p a then some 0 else (findIdxO p l).map (· + 1)

/-- The feed item built by the round-3 `agent_done` branch (app.js 910-925):
`msg` fields first, the metadata cache as fallback, inference last. -/
def agentDoneItem (meta : Option DebateMeta) (msg : FeedMsg) (ts : String) : FeedItem :=
  let topic := jsOrO msg.topic (jsOr ((meta.map DebateMeta.topic).getD "") "")
  let category := jsOrO msg.category
    (jsOr ((meta.map DebateMeta.category).getD "") (inferFeedCategory topic "default"))
  ⟨"agent_done", msg.debate_id, topic, category, msg.agent, none, none, msg.content, ts⟩

/-- The verdict item built by the `debate_end` branch (app.js 928-942). -/
def debateEndItem (meta : Option DebateMeta) (msg : FeedMsg) (ts : String) : FeedItem :=
  let topic := jsOrO msg.topic (jsOr ((meta.map DebateMeta.topic).getD "")
    (jsOrO (msg.content.map (fun c => strTake c 160)) ""))
  let category := jsOrO msg.category
    (jsOr ((meta.map DebateMeta.category).getD "") (inferFeedCategory topic "default"))
  ⟨"debate_end", msg.debate_id, topic, category, none, some ((msg.agent_scores).getD []),
   msg.verdict, some (jsOrO msg.content ""), ts⟩

/-- `processFeedEvent(msg)` (app.js 878-952).  `now` stands for
`new Date().toISOString()`.  DOM-only effects (`renderFeedItems` calls, the
banner, the debates-page refresh) are projections and do not change this
state. -/
def processFeedEvent (now : String) (s : FeedState) (msg : FeedMsg) : FeedState :=
  let ts := jsOrO msg.timestamp now
  if msg.type = "loop_status" then
    let category := jsOrO msg.category (inferFeedCategory (msg.topic.getD "") "default")
    let ctx :=
      if msg.status == some "debating" && truthyO msg.topic then
        (⟨msg.topic, category⟩ : LoopContext)
      else s.lastLoopContext
    { s with
      lastLoopContext := ctx,
      loopBar := updateLoopStatusBar s.loopBar msg.status msg.running,
      feedLoopRunning := msg.status == some "debating" || msg.status == some "cooldown" }
  else if msg.type = "ping" then s
  else if msg.type = "debate_start" then
    let topic := jsOrO (msg.content.map (fun c => replaceOnce c "Debate started: "))
      (jsOrO msg.topic "")
    let category := jsOrO msg.category
      (if topicsMatch topic (s.lastLoopContext.topic.getD "") then s.lastLoopContext.category
       else inferFeedCategory topic "default")
    { s with
      feedDebateMeta := rememberDebateMeta s.feedDebateMeta msg.debate_id topic category,
      feedItems := pushFeedItem s.feedItems
        ⟨"debate_start", msg.debate_id, topic, category, some "System", none, none, some "", ts⟩ }
  else if msg.type = "agent_done" ∧ msg.round = some 3 then
    let item := agentDoneItem (metaLookupO s.feedDebateMeta msg.debate_id) msg ts
    { s with
      feedDebateMeta := rememberDebateMeta s.feedDebateMeta msg.debate_id item.topic item.category,
      feedItems := pushFeedItem s.feedItems item }
  else if msg.type = "debate_end" then
    let verdictItem := debateEndItem (metaLookupO s.feedDebateMeta msg.debate_id) msg ts
    let meta' := rememberDebateMeta s.feedDebateMeta msg.debate_id verdictItem.topic
      verdictItem.category
    if (findIdxO (isRoomEndItem msg.debate_id) s.feedItems).isSome then
      { s with feedDebateMeta := meta',
               feedItems := s.feedItems.set
                 ((findIdxO (isRoomEndItem msg.debate_id) s.feedItems).getD 0) verdictItem }
    else { s with feedDebateMeta := meta', feedItems := pushFeedItem s.feedItems verdictItem }
  else s

/-- What one feed card shows (app.js 853-875): the fields are taken from the
item itself, not from `feedDebateMeta`. -/
structure FeedCard where
  category : String
  headline : String
  snippet : String
deriving DecidableEq, Repr

/-- The projection of one item to its card (app.js 853-875). -/
def renderFeedItem (it : FeedItem) : FeedCard :=
  { category := jsOr it.category "default",
    headline := strTake (jsOr it.topic (jsOrO it.content "")) 140,
    snippet := strTake (jsOrO it.content "") 280 }

/-- `renderFeedItems()` (app.js 843-876): filter by category, newest first. -/
def renderFeedItems (s : FeedState) (filter : String) : List FeedCard :=
  let visible :=
    if filter = "all" then s.feedItems
    else s.feedItems.filter (fun i => i.category == filter)
  visible.reverse.map renderFeedItem

/-! ## Status Synchronizer: the pull channel (app.js 981-1004) -/

/-- The `/api/loop/status` snapshot consumed by `syncLoopStatus`. -/
structure LoopSnapshot where
  running : Bool
  current_topic : Option String
  current_category : Option String
  debates_run : Option Nat
deriving DecidableEq, Repr

/-- The status string `syncLoopStatus` derives from a snapshot. -/
def pullStatus (snap : LoopSnapshot) : String :=
  if snap.running then (if truthyO snap.current_topic then "debating" else "cooldown")
  else "paused"

/-- `syncLoopStatus()` (app.js 981-1004), applied to a successfully fetched
snapshot: derive a status, update `lastLoopContext` when running on a topic,
and overwrite the status bar through `updateLoopStatusBar`. -/
def syncLoopStatus (s : FeedState) (snap : LoopSnapshot) : FeedState :=
  let status := pullStatus snap
  let category := jsOrO snap.current_category
    (inferFeedCategory (snap.current_topic.getD "") "default")
  let ctx :=
    if snap.running && truthyO snap.current_topic then
      (⟨snap.current_topic, category⟩ : LoopContext)
    else s.lastLoopContext
  { s with
    lastLoopContext := ctx,
    loopBar := updateLoopStatusBar s.loopBar (some status) (some snap.running),
    feedLoopRunning := status == "debating" || status == "cooldown" }

/-- The phase a status message determines on its own, independent of the
previous bar state; `none` when the message leaves the label untouched
(truthy `running` with a status other than `debating`/`cooldown`). -/
def phaseOfMsg (status : Option String) (running : Option Bool) : Option String :=
  if status = some "debating" then some "debating"
  else if status = some "cooldown" then some "cooldown"
  else if running ≠ some true then some "paused"
  else none

/-! ## Connection Manager: the global feed socket (app.js 753-1071)

`feedWs`, `feedReconnectTimer` and `feedWsShouldRun` become an explicit state
machine.  Sockets get numeric identities; `live` is the set (list) of sockets
whose transport has not closed yet, `cur` is the socket `feedWs` points to,
`closing` records that `ws.onerror` called `close()` on the current socket
(readyState CLOSING, so the `OPEN || CONNECTING` guard fails), and `timers`
is the multiset of pending reconnect delays — the code stores a single handle
in `feedReconnectTimer`, and the theorems prove at most one is ever pending.
`shouldRun` is `feedWsShouldRun`, the flag `ws.onclose` consults before
scheduling a reconnect; a caller cancelling the subscription clears it. -/

def FEED_RECONNECT_MS : Nat := 3000

structure FeedConn where
  nextId : Nat
  cur : Option Nat
  closing : Bool
  live : List Nat
  timers : List Nat
  shouldRun : Bool
deriving DecidableEq, Repr

def initFeedConn : FeedConn :=
  { nextId := 0, cur := none, closing := false, live := [], timers := [], shouldRun := true }

/-- `connectFeedWs(force)` (app.js 1013-1065): return if a connection is
already open or connecting (unless forced); otherwise clear any pending
reconnect timer, detach the old socket's `onclose` and close it, and open a
fresh socket to the same `/api/loop/feed` target. -/
def connectFeedWs (force : Bool) (s : FeedConn) : FeedConn :=
  if force = false ∧ s.cur ≠ none ∧ s.closing = false then s
  else
    { nextId := s.nextId + 1,
      cur := some s.nextId,
      closing := false,
      live := (match s.cur with | some c => s.live.erase c | none => s.live) ++ [s.nextId],
      timers := [],
      shouldRun := s.shouldRun }

/-- The events the connection manager reacts to: a connect request, a
transport error (`ws.onerror`, which calls `ws.close()`), a transport close
(`ws.onclose` fires — a no-op for a socket that is no longer `feedWs`, whose
handler was detached or whose guard `feedWs !== ws` fails), a reconnect timer
firing, and caller cancellation (clearing `feedWsShouldRun`). -/
inductive ConnEvent where
  | connect (force : Bool)
  | socketError (sid : Nat)
  | socketClosed (sid : Nat)
  | timerFire
  | cancel
deriving DecidableEq, Repr

/-- One step of the connection manager. -/
def stepFeedConn (s : FeedConn) (e : ConnEvent) : FeedConn :=
  match e with
  | .connect f => connectFeedWs f s
  | .socketError sid => if s.cur = some sid then { s with closing := true } else s
  | .socketClosed sid =>
      let live' := s.live.erase sid
      if s.cur = some sid then
        { s with cur := none, closing := false, live := live',
                 timers := if s.shouldRun then s.timers ++ [FEED_RECONNECT_MS] else s.timers }
      else { s with live := live' }
  | .timerFire =>
      match s.timers with
      | [] => s
      | _ :: rest => connectFeedWs false { s with timers := rest }
  | .cancel => { s with shouldRun := false }

/-- The connection manager's inductive invariant: the live sockets are exactly
the current one (if any); at most one reconnect timer is pending, always with
the fixed 3000 ms delay; and a pending timer implies no current socket. -/
def ConnInv (s : FeedConn) : Prop :=
  (match s.cur with | some c => s.live = [c] | none => s.live = []) ∧
  (s.timers = [] ∨ s.timers = [FEED_RECONNECT_MS]) ∧
  (s.timers ≠ [] → s.cur = none)

/-! ## The two `onmessage` handlers (app.js 266-268 and 1062-1064)

A frame whose payload fails `JSON.parse` is modelled as `none`.  The feed
handler wraps the parse in `try { ... } catch (_) {}`, so a malformed frame
leaves the state unchanged; the room handler has no such guard, so the parse
exception propagates out of the handler (`Except.error`), though no state was
mutated before the throw and the socket itself is unaffected. -/

/-- The feed socket's `onmessage` (app.js 1062-1064). -/
def feedOnMessage (now : String) (s : FeedState) (frame : Option FeedMsg) : FeedState :=
  match frame with
  | none => s
  | some msg => processFeedEvent now s msg

/-- The room socket's `onmessage` (app.js 266-312): `JSON.parse(e.data)` is
unguarded, so a malformed frame throws. -/
def roomOnMessage (s : RoomView) (frame : Option RoomMsg) : Except Unit RoomView :=
  match frame with
  | none => Except.error ()
  | some msg => Except.ok (dispatchRoom s msg)

/-- The state the browser is left in after the room handler runs: an uncaught
exception aborts the handler, leaving the state as it was. -/
def roomOnMessageState (s : RoomView) (frame : Option RoomMsg) : RoomView :=
  match roomOnMessage s frame with
  | Except.ok s' => s'
  | Except.error _ => s

/-! ## Concatenation of chunk texts -/

/-- Ordered concatenation of a list of chunk texts. -/
def concatStrs : List String → String
  | [] => ""
  | s :: l => s ++ concatStrs l

/-! ## Concrete traces used to evaluate the code on specific inputs -/

/-- Viewing room 1, one chunk arrives, the viewer opens room 2, and room 2's
first chunk arrives with the same `(participant, round)` key. -/
def roomSwitchTrace : RoomView :=
  [RoomMsg.agentChunk "A" 1 "world"].foldl dispatchRoom
    (loadDebate
      ([RoomMsg.agentChunk "A" 1 "hello"].foldl dispatchRoom (loadDebate initRoomView 1)) 2)

/-- A chunk, then an `agent_done` (MessageComplete) for the same
`(participant, round)`, then another chunk with that key. -/
def chunkDoneChunkTrace : RoomView :=
  [RoomMsg.agentChunk "A" 1 "x", .completeMsg "A" (some 1) "d", .agentChunk "A" 1 "y"].foldl
    dispatchRoom (loadDebate initRoomView 1)

/-- A `debate_start` frame for room 5. -/
def exStartMsg : FeedMsg :=
  ⟨"debate_start", some 5, none, none, some "Debate started: T5", none, none, none, none,
   some "t1", none, none, none⟩

/-- A round-3 `agent_done` frame for room 5. -/
def exDoneMsg : FeedMsg :=
  ⟨"agent_done", some 5, none, none, some "the case!", some "A", some 3, none, none,
   some "t2", none, none, none⟩

/-- A `debate_end` frame for room 5. -/
def exEndMsg : FeedMsg :=
  ⟨"debate_end", some 5, none, none, some "sum", none, none, some "pass", some ["A", "B"],
   some "t3", none, none, none⟩

/-- Feed state after an opened room, a round-3 conclusion, and the close. -/
def feedEndTrace : FeedState :=
  [exStartMsg, exDoneMsg, exEndMsg].foldl (processFeedEvent "now") initFeedState

/-- Feed state holding just the `debate_start` item of room 5. -/
def feedStartState : FeedState := processFeedEvent "now" initFeedState exStartMsg

/-- A `debate_start` frame for room 7 whose topic carries no category
keyword. -/
def exStart7Msg : FeedMsg :=
  ⟨"debate_start", some 7, none, none, some "Debate started: rain dance", none, none, none, none,
   some "t1", none, none, none⟩

/-- A round-3 `agent_done` frame for room 7 carrying `category: "technical"`. -/
def exDone7Msg : FeedMsg :=
  ⟨"agent_done", some 7, none, some "technical", some "done", some "A", some 3, none, none,
   some "t2", none, none, none⟩

/-- Feed state after the room-7 start and the categorised conclusion. -/
def metaBackfillTrace : FeedState := [exStart7Msg, exDone7Msg].foldl (processFeedEvent "t0") initFeedState

/-- A push `loop_status` frame reporting an active debate. -/
def exPushMsg : FeedMsg :=
  ⟨"loop_status", none, some "T", none, none, none, none, none, none, none,
   some "debating", some true, some 4⟩

/-- A pull snapshot observed while the loop was paused. -/
def exPausedSnap : LoopSnapshot := ⟨false, none, none, none⟩

/-- A feed item used to build concrete 200-element lists. -/
def exItem : FeedItem :=
  ⟨"debate_start", some 1, "t", "default", none, none, none, some "", "ts"⟩

/-- A metadata entry used to build concrete 200-element maps. -/
def exMeta : DebateMeta := ⟨"t", "default"⟩

/-! ## Helper lemmas: strings and the chunk store -/

theorem strAppendEmpty (s : String) : s ++ "" = s := by
  apply String.ext
  simp

theorem strAppendAssoc (a b c : String) : a ++ b ++ c = a ++ (b ++ c) := by
  apply String.ext
  simp

theorem appendAt_last (pre : List Bubble) (b : Bubble) (t : String) :
    appendAt (pre ++ [b]) pre.length t = pre ++ [{ b with text := b.text ++ t }] := by
  induction pre with
  | nil => rfl
  | cons a l ih => simpa [appendAt] using ih

/-- A chunk whose key does not match the pointer (or arrives with a null
pointer) opens a fresh entry carrying the chunk text and moves the pointer. -/
theorem appendChunk_fresh (s : RoomView) (a : String) (r : Nat) (c : String)
    (h : s.lastChunkAgent ≠ some (chunkKey a r) ∨ s.lastChunkBubble = none) :
    appendChunk s a r c =
      { s with store := s.store ++ [⟨s.activeDebateId, a, some r, c, .message⟩],
               feed := s.feed ++ [s.store.length],
               lastChunkAgent := some (chunkKey a r),
               lastChunkBubble := some s.store.length } := by
  unfold appendChunk
  rw [if_pos h]

/-- A chunk whose key matches the pointer appends its text to the pointed-at
bubble and changes nothing else. -/
theorem appendChunk_matching (s : RoomView) (a : String) (r : Nat) (c : String)
    (pre : List Bubble) (b : Bubble) (hst : s.store = pre ++ [b])
    (hp : s.lastChunkBubble = some pre.length)
    (ha : s.lastChunkAgent = some (chunkKey a r)) :
    appendChunk s a r c = { s with store := pre ++ [{ b with text := b.text ++ c }] } := by
  unfold appendChunk
  rw [if_neg (by rw [ha, hp]; simp)]
  rw [hp, hst]
  simp [appendAt_last]

/-- Folding matching-key chunks appends their concatenation to the open
bubble's text. -/
theorem foldChunks_matching (a : String) (r : Nat) (cs : List String) :
    ∀ (s : RoomView) (pre : List Bubble) (b : Bubble),
    s.store = pre ++ [b] → s.lastChunkBubble = some pre.length →
    s.lastChunkAgent = some (chunkKey a r) →
    cs.foldl (fun st c => dispatchRoom st (.agentChunk a r c)) s =
      { s with store := pre ++ [{ b with text := b.text ++ concatStrs cs }] } := by
  induction cs with
  | nil =>
    intro s pre b hst hp ha
    simp only [List.foldl_nil, concatStrs, strAppendEmpty]
    rw [← hst]
  | cons c cs ih =>
    intro s pre b hst hp ha
    rw [List.foldl_cons]
    rw [show dispatchRoom s (.agentChunk a r c) = appendChunk s a r c from rfl]
    rw [appendChunk_matching s a r c pre b hst hp ha]
    rw [ih { s with store := pre ++ [{ b with text := b.text ++ c }] } pre
      { b with text := b.text ++ c } rfl hp ha]
    simp [concatStrs, strAppendAssoc]

/-! ## Claim C1 -/

/-- C1: refuted by evaluation — switching rooms does not tear the chunk
pointer down.  After viewing room 1 and receiving a chunk for key `A`/round 1,
opening room 2 (`loadDebate`) clears the feed but leaves `lastChunkAgent` /
`lastChunkBubble` pointing at room 1's (now detached) bubble; room 2's first
chunk with the same key is appended to that room-1 bubble (text becomes
`"helloworld"`), room 2's transcript stays empty, and the pointer still
references the room-1 entry.  The claim says the previous room's subscription
is fully torn down and no open-chunk pointer from room A is carried into or
appended to by any subsequent event. -/
theorem c1_chunk_pointer_leak :
    roomSwitchTrace.feed = [] ∧
    roomSwitchTrace.store = [⟨some 1, "A", some 1, "helloworld", .message⟩] ∧
    roomSwitchTrace.lastChunkBubble = some 0 ∧
    roomSwitchTrace.lastChunkAgent = some (chunkKey "A" 1) := by
  decide

/-! ## Claim C2 -/

/-- C2: refuted as stated — a MessageComplete (`agent_done`/`historical`)
frame does not close the open chunk entry.  After `chunk(A,1,"x")`,
`agent_done(A,1,"d")`, `chunk(A,1,"y")`, the transcript holds two entries with
texts `"xy"` and `"d"`: the final chunk was appended to the still-open first
entry instead of opening a fresh one, and the pointer still references
entry 0.  The claim says the `agent_done` would have closed the entry and a
fresh entry would have been opened for `"y"`. -/
theorem c2_messageComplete_does_not_close :
    chunkDoneChunkTrace.store.map Bubble.text = ["xy", "d"] ∧
    chunkDoneChunkTrace.feed = [0, 1] ∧
    chunkDoneChunkTrace.lastChunkBubble = some 0 := by
  decide

/-- C2 (amended): starting from a cleared open-chunk pointer, a sequence of
`MessageChunk` frames sharing `(participant, round)` assembles one entry whose
text is the ordered concatenation of the chunk texts; the entry stays open
(the pointer keeps referencing it) until a round divider, a `RoomClosed`, or a
chunk with a differing `(participant, round)` arrives — the differing chunk
opens a fresh entry.  (`MessageComplete` frames, contrary to the original
claim, do not close the open entry.) -/
theorem c2_chunk_assembly (s : RoomView) (a : String) (r : Nat) (t : String) (ts : List String)
    (lbl : String) (v cc : Option String) (a2 : String) (r2 : Nat) (c2 : String)
    (hopen : s.lastChunkBubble = none) (hk : chunkKey a2 r2 ≠ chunkKey a r) :
    (t :: ts).foldl (fun st c => dispatchRoom st (.agentChunk a r c)) s =
      { s with
        store := s.store ++ [⟨s.activeDebateId, a, some r, concatStrs (t :: ts), .message⟩],
        feed := s.feed ++ [s.store.length],
        lastChunkAgent := some (chunkKey a r),
        lastChunkBubble := some s.store.length } ∧
    (dispatchRoom ((t :: ts).foldl (fun st c => dispatchRoom st (.agentChunk a r c)) s)
      (.roundStart lbl)).lastChunkBubble = none ∧
    (dispatchRoom ((t :: ts).foldl (fun st c => dispatchRoom st (.agentChunk a r c)) s)
      (.debateEnd v cc)).lastChunkBubble = none ∧
    dispatchRoom ((t :: ts).foldl (fun st c => dispatchRoom st (.agentChunk a r c)) s)
      (.agentChunk a2 r2 c2) =
      { s with
        store := s.store ++ [⟨s.activeDebateId, a, some r, concatStrs (t :: ts), .message⟩,
          ⟨s.activeDebateId, a2, some r2, c2, .message⟩],
        feed := s.feed ++ [s.store.length, s.store.length + 1],
        lastChunkAgent := some (chunkKey a2 r2),
        lastChunkBubble := some (s.store.length + 1) } := by
  have h1 : (t :: ts).foldl (fun st c => dispatchRoom st (.agentChunk a r c)) s =
      { s with
        store := s.store ++ [⟨s.activeDebateId, a, some r, concatStrs (t :: ts), .message⟩],
        feed := s.feed ++ [s.store.length],
        lastChunkAgent := some (chunkKey a r),
        lastChunkBubble := some s.store.length } := by
    rw [List.foldl_cons]
    rw [show dispatchRoom s (.agentChunk a r t) = appendChunk s a r t from rfl]
    rw [appendChunk_fresh s a r t (Or.inr hopen)]
    rw [foldChunks_matching a r ts _ s.store ⟨s.activeDebateId, a, some r, t, .message⟩ rfl rfl rfl]
    simp [concatStrs]
  refine ⟨h1, ?_, ?_, ?_⟩
  · rfl
  · cases cc with
    | none => rfl
    | some txt =>
      dsimp only [dispatchRoom]
      split
      · rfl
      · rfl
  · rw [h1]
    rw [show dispatchRoom _ (.agentChunk a2 r2 c2) = appendChunk _ a2 r2 c2 from rfl]
    rw [appendChunk_fresh _ a2 r2 c2 (Or.inl (by simpa using Ne.symm hk))]
    simp

/-- C2 witness: the amended theorem applied at chunks `"x"`, `"y"` for
`A`/round 1 from the initial view, closed by a `B`/round 1 chunk. -/
theorem c2_chunk_assembly_witness :
    (["x", "y"] : List String).foldl
        (fun st c => dispatchRoom st (.agentChunk "A" 1 c)) initRoomView =
      { initRoomView with
        store := initRoomView.store ++
          [⟨initRoomView.activeDebateId, "A", some 1, concatStrs ["x", "y"], .message⟩],
        feed := initRoomView.feed ++ [initRoomView.store.length],
        lastChunkAgent := some (chunkKey "A" 1),
        lastChunkBubble := some initRoomView.store.length } ∧
    (dispatchRoom ((["x", "y"] : List String).foldl
        (fun st c => dispatchRoom st (.agentChunk "A" 1 c)) initRoomView)
      (.roundStart "L")).lastChunkBubble = none ∧
    (dispatchRoom ((["x", "y"] : List String).foldl
        (fun st c => dispatchRoom st (.agentChunk "A" 1 c)) initRoomView)
      (.debateEnd none none)).lastChunkBubble = none ∧
    dispatchRoom ((["x", "y"] : List String).foldl
        (fun st c => dispatchRoom st (.agentChunk "A" 1 c)) initRoomView)
      (.agentChunk "B" 1 "z") =
      { initRoomView with
        store := initRoomView.store ++
          [⟨initRoomView.activeDebateId, "A", some 1, concatStrs ["x", "y"], .message⟩,
           ⟨initRoomView.activeDebateId, "B", some 1, "z", .message⟩],
        feed := initRoomView.feed ++ [initRoomView.store.length, initRoomView.store.length + 1],
        lastChunkAgent := some (chunkKey "B" 1),
        lastChunkBubble := some (initRoomView.store.length + 1) } :=
  c2_chunk_assembly initRoomView "A" 1 "x" ["y"] "L" none none "B" 1 "z" rfl (by decide)

/-! ## Helper lemmas: lists, `jsOr`, the metadata map -/

theorem replace_once_list {α : Type} (p : α → Bool) (x : α) (hx : p x = true) :
    ∀ (l : List α), l.countP p = 1 →
    ∃ i, findIdxO p l = some i ∧
      (l.set i x).countP p = 1 ∧
      (l.set i x).length = l.length ∧
      (∀ y ∈ l.set i x, p y = true → y = x) ∧
      findIdxO p (l.set i x) = some i := by
  intro l
  induction l with
  | nil => intro h; simp at h
  | cons a t ih =>
    intro h
    rw [List.countP_cons] at h
    by_cases hpa : p a = true
    · have ht : t.countP p = 0 := by
        rw [hpa] at h
        simpa using h
      refine ⟨0, ?_, ?_, ?_, ?_, ?_⟩
      · simp [findIdxO, hpa]
      · simp only [List.set]
        simp [List.countP_cons, hx, ht]
      · simp
      · intro y hy hpy
        simp only [List.set, List.mem_cons] at hy
        rcases hy with rfl | hy
        · rfl
        · exact absurd hpy (by simpa using (List.countP_eq_zero.mp ht) y hy)
      · simp [List.set, findIdxO, hx]
    · have hpa' : p a = false := by simpa using hpa
      rw [hpa'] at h
      simp at h
      obtain ⟨i, hfind, hcnt, hlen, hall, hfind2⟩ := ih h
      refine ⟨i + 1, ?_, ?_, ?_, ?_, ?_⟩
      · simp [findIdxO, hpa', hfind]
      · simp only [List.set]
        simp [List.countP_cons, hpa', hcnt]
      · simp [hlen]
      · intro y hy hpy
        simp only [List.set, List.mem_cons] at hy
        rcases hy with rfl | hy
        · exact absurd hpy (by simp [hpa'])
        · exact hall y hy hpy
      · simp [List.set, findIdxO, hpa', hfind2]

theorem jsOr_empty_right (x : String) : jsOr x "" = x := by
  unfold jsOr
  split_ifs <;> simp_all

theorem jsOr_stable_topic (u z : String) : jsOr (jsOr (jsOr u z) u) z = jsOr u z := by
  unfold jsOr
  split_ifs <;> simp_all

theorem jsOr_stable_cat (u i : String) (hi : i ≠ "") :
    jsOr (jsOr (jsOr u i) (jsOr u "default")) i = jsOr u i := by
  unfold jsOr
  split_ifs <;> simp_all

theorem jsOrO_stable_topic (o : Option String) (u z : String) :
    jsOrO o (jsOr (jsOr (jsOrO o (jsOr u z)) (jsOr u "")) z) = jsOrO o (jsOr u z) := by
  cases o <;> simp only [jsOrO, jsOr] <;> split_ifs <;> simp_all

theorem jsOrO_stable_cat (o : Option String) (u i : String) (hi : i ≠ "") :
    jsOrO o (jsOr (jsOr (jsOrO o (jsOr u i)) (jsOr u "default")) i) = jsOrO o (jsOr u i) := by
  cases o <;> simp only [jsOrO, jsOr] <;> split_ifs <;> simp_all

theorem inferFeedCategory_ne_empty (t fb : String) (hfb : fb ≠ "") :
    inferFeedCategory t fb ≠ "" := by
  simp only [inferFeedCategory]
  split_ifs <;> first | exact hfb | decide

theorem find?_map_update {β : Type} (d : Nat) (v : β) :
    ∀ (m : List (Nat × β)), m.any (fun p => p.fst == d) = true →
    (m.map (fun p => if p.fst == d then (d, v) else p)).find? (fun p => p.fst == d) =
      some (d, v) := by
  intro m
  induction m with
  | nil => intro h; simp at h
  | cons a t ih =>
    intro h
    by_cases ha : a.fst = d
    · simp [List.find?, ha]
    · have ha' : (a.fst == d) = false := by simpa using ha
      simp only [List.any_cons, ha', Bool.false_or] at h
      rw [List.map_cons, if_neg (by simp [ha']), List.find?_cons_of_neg _ (by simp [ha']), ih h]

theorem find?_append_right {α : Type} (p : α → Bool) (l2 : List α) :
    ∀ l1 : List α, l1.any p = false → (l1 ++ l2).find? p = l2.find? p := by
  intro l1
  induction l1 with
  | nil => intro _; rfl
  | cons a t ih =>
    intro h
    simp only [List.any_cons, Bool.or_eq_false_iff] at h
    rw [List.cons_append, List.find?_cons_of_neg _ (by simp [h.1]), ih h.2]

theorem any_drop_one {α : Type} (p : α → Bool) (l : List α) (h : l.any p = false) :
    (l.drop 1).any p = false := by
  cases l with
  | nil => simp
  | cons a t =>
    simp only [List.any_cons, Bool.or_eq_false_iff] at h
    simpa using h.2

/-- Looking up `d` right after `rememberDebateMeta` over a map within capacity
returns the merged value. -/
theorem metaLookup_remember (m : List (Nat × DebateMeta)) (d : Nat) (topic category : String)
    (hd : d ≠ 0) (hm : m.length ≤ FEED_MAX_ITEMS) :
    metaLookup (rememberDebateMeta m (some d) topic category) d =
      some ⟨jsOr topic (jsOr (((metaLookup m d).map DebateMeta.topic).getD "") ""),
            jsOr category (jsOr (((metaLookup m d).map DebateMeta.category).getD "") "default")⟩ := by
  dsimp only [rememberDebateMeta]
  rw [if_neg hd]
  set v : DebateMeta :=
    ⟨jsOr topic (jsOr (((metaLookup m d).map DebateMeta.topic).getD "") ""),
     jsOr category (jsOr (((metaLookup m d).map DebateMeta.category).getD "") "default")⟩ with hv
  by_cases hany : m.any (fun p => p.fst == d) = true
  · rw [if_pos hany]
    rw [if_neg (by simpa using hm)]
    unfold metaLookup
    rw [find?_map_update d v m hany]
    rfl
  · have hanyf : m.any (fun p => p.fst == d) = false := by
      rw [Bool.eq_false_iff]; exact hany
    rw [if_neg hany]
    by_cases hlen : (m ++ [(d, v)]).length > FEED_MAX_ITEMS
    · rw [if_pos hlen]
      rw [List.drop_append_of_le_length (by simp [FEED_MAX_ITEMS] at hlen ⊢; omega)]
      unfold metaLookup
      rw [find?_append_right _ _ (m.drop 1) (any_drop_one _ m hanyf)]
      simp [List.find?]
    · rw [if_neg hlen]
      unfold metaLookup
      rw [find?_append_right _ _ m hanyf]
      simp [List.find?]

/-- The `debate_end` branch dissected (app.js 926-951). -/
theorem processFeedEvent_debate_end (now : String) (s : FeedState) (msg : FeedMsg)
    (htype : msg.type = "debate_end") :
    processFeedEvent now s msg =
      (let ts := jsOrO msg.timestamp now
       let verdictItem := debateEndItem (metaLookupO s.feedDebateMeta msg.debate_id) msg ts
       let meta' := rememberDebateMeta s.feedDebateMeta msg.debate_id verdictItem.topic
         verdictItem.category
       if (findIdxO (isRoomEndItem msg.debate_id) s.feedItems).isSome then
         { s with feedDebateMeta := meta',
                  feedItems := s.feedItems.set
                    ((findIdxO (isRoomEndItem msg.debate_id) s.feedItems).getD 0) verdictItem }
       else { s with feedDebateMeta := meta', feedItems := pushFeedItem s.feedItems verdictItem }) := by
  simp only [processFeedEvent, htype]
  rw [if_neg (by decide : ¬("debate_end" : String) = "loop_status"),
    if_neg (by decide : ¬("debate_end" : String) = "ping"),
    if_neg (by decide : ¬("debate_end" : String) = "debate_start"),
    if_neg (fun h => absurd h.1 (by decide)),
    if_pos trivial]

/-- The item construction of `debateEndItem` is stable under one prior
`rememberDebateMeta` round-trip: re-deriving the verdict item after the first
delivery already updated the cache yields the same item. -/
theorem debateEndItem_stable (m : List (Nat × DebateMeta)) (msg : FeedMsg) (ts : String)
    (hm : m.length ≤ FEED_MAX_ITEMS) :
    debateEndItem (metaLookupO (rememberDebateMeta m msg.debate_id
        (debateEndItem (metaLookupO m msg.debate_id) msg ts).topic
        (debateEndItem (metaLookupO m msg.debate_id) msg ts).category) msg.debate_id) msg ts =
      debateEndItem (metaLookupO m msg.debate_id) msg ts := by
  cases hdid : msg.debate_id with
  | none => simp [rememberDebateMeta, metaLookupO]
  | some d =>
    by_cases hd : d = 0
    · subst hd
      simp [rememberDebateMeta, metaLookupO]
    · simp only [metaLookupO]
      rw [metaLookup_remember m d _ _ hd hm]
      simp only [debateEndItem]
      simp only [Option.map, Option.getD]
      rw [FeedItem.mk.injEq]
      refine ⟨rfl, rfl, ?_, ?_, rfl, rfl, rfl, rfl, rfl⟩
      · exact jsOrO_stable_topic msg.topic _ _
      · rw [jsOrO_stable_topic msg.topic _ _]
        exact jsOrO_stable_cat msg.category _ _ (inferFeedCategory_ne_empty _ _ (by decide))

/-! ## Claim C3 -/

/-- C3: refuted as stated — after `debate_start`, a round-3 `agent_done` and
`debate_end` for room 5, the feed holds *two* items with `debate_id = 5` (the
verdict item that replaced the start item, and the untouched round-3
conclusion item), not "exactly one item for that roomId". -/
theorem c3_not_exactly_one_item :
    (feedEndTrace.feedItems.countP (fun it => it.debate_id == some 5)) = 2 := by
  decide

/-- C3 (amended): when the feed holds exactly one start-or-end item for the
event's room, processing `RoomClosed` (`debate_end`) replaces that item in
place (the list length is unchanged), the feed still holds exactly one
start-or-end item for that room and it is the Verdict item (kind
`debate_end`, carrying the event's verdict); redelivering the same
`debate_end` leaves the feed list literally unchanged (idempotent).
Conclusion items (`agent_done`) for the room are not removed, so "exactly one
item" holds for the start/end kind, not for all items of the room. -/
theorem c3_verdict_replaces_in_place (now : String) (s : FeedState) (msg : FeedMsg)
    (htype : msg.type = "debate_end")
    (hcount : s.feedItems.countP (isRoomEndItem msg.debate_id) = 1)
    (hmeta : s.feedDebateMeta.length ≤ FEED_MAX_ITEMS) :
    ((processFeedEvent now s msg).feedItems.countP (isRoomEndItem msg.debate_id) = 1) ∧
    ((processFeedEvent now s msg).feedItems.length = s.feedItems.length) ∧
    (∀ it ∈ (processFeedEvent now s msg).feedItems, isRoomEndItem msg.debate_id it = true →
        it.type = "debate_end" ∧ it.verdict = msg.verdict) ∧
    ((processFeedEvent now (processFeedEvent now s msg) msg).feedItems =
        (processFeedEvent now s msg).feedItems) := by
  have hxv : isRoomEndItem msg.debate_id
      (debateEndItem (metaLookupO s.feedDebateMeta msg.debate_id) msg
        (jsOrO msg.timestamp now)) = true := by
    simp [isRoomEndItem, debateEndItem]
  obtain ⟨i, hfind, hcnt1, hlen1, hall1, hfind2⟩ :=
    replace_once_list (isRoomEndItem msg.debate_id)
      (debateEndItem (metaLookupO s.feedDebateMeta msg.debate_id) msg (jsOrO msg.timestamp now))
      hxv s.feedItems hcount
  have e1 : processFeedEvent now s msg =
      { s with
        feedDebateMeta := rememberDebateMeta s.feedDebateMeta msg.debate_id
          (debateEndItem (metaLookupO s.feedDebateMeta msg.debate_id) msg
            (jsOrO msg.timestamp now)).topic
          (debateEndItem (metaLookupO s.feedDebateMeta msg.debate_id) msg
            (jsOrO msg.timestamp now)).category,
        feedItems := s.feedItems.set i
          (debateEndItem (metaLookupO s.feedDebateMeta msg.debate_id) msg
            (jsOrO msg.timestamp now)) } := by
    rw [processFeedEvent_debate_end now s msg htype]
    dsimp only
    rw [hfind]
    simp
  have e2 : (processFeedEvent now (processFeedEvent now s msg) msg).feedItems =
      (processFeedEvent now s msg).feedItems := by
    rw [e1, processFeedEvent_debate_end now _ msg htype]
    dsimp only
    rw [debateEndItem_stable s.feedDebateMeta msg (jsOrO msg.timestamp now) hmeta]
    rw [hfind2]
    simp [List.set_set]
  refine ⟨?_, ?_, ?_, e2⟩
  · rw [e1]; exact hcnt1
  · rw [e1]; exact hlen1
  · intro it hit hp
    rw [e1] at hit
    have hh := hall1 it hit hp
    subst hh
    constructor
    · simp [debateEndItem]
    · simp [debateEndItem]

/-- C3 witness: the amended theorem applied to the feed state holding just
room 5's `debate_start` item and the concrete `debate_end` frame. -/
theorem c3_verdict_replaces_in_place_witness :
    ((processFeedEvent "now" feedStartState exEndMsg).feedItems.countP
      (isRoomEndItem exEndMsg.debate_id) = 1) ∧
    ((processFeedEvent "now" feedStartState exEndMsg).feedItems.length =
      feedStartState.feedItems.length) ∧
    (∀ it ∈ (processFeedEvent "now" feedStartState exEndMsg).feedItems,
        isRoomEndItem exEndMsg.debate_id it = true →
        it.type = "debate_end" ∧ it.verdict = exEndMsg.verdict) ∧
    ((processFeedEvent "now" (processFeedEvent "now" feedStartState exEndMsg) exEndMsg).feedItems =
        (processFeedEvent "now" feedStartState exEndMsg).feedItems) :=
  c3_verdict_replaces_in_place "now" feedStartState exEndMsg rfl (by decide) (by decide)

/-! ## Claim C4 -/

theorem pushFeedItem_length (l : List FeedItem) (x : FeedItem)
    (h : l.length ≤ FEED_MAX_ITEMS) : (pushFeedItem l x).length ≤ FEED_MAX_ITEMS := by
  simp only [pushFeedItem]
  split_ifs with hc
  · simp only [List.length_drop]
    omega
  · simp only [List.length_append, List.length_cons, List.length_nil] at hc ⊢
    omega

theorem rememberDebateMeta_length (m : List (Nat × DebateMeta)) (did : Option Nat)
    (t c : String) (h : m.length ≤ FEED_MAX_ITEMS) :
    (rememberDebateMeta m did t c).length ≤ FEED_MAX_ITEMS := by
  cases did with
  | none => exact h
  | some d =>
    dsimp only [rememberDebateMeta]
    split_ifs with h0 hany hlen hlen <;>
      simp_all [List.length_drop, List.length_append, List.length_map] <;> omega

theorem processFeedEvent_bounds (now : String) (s : FeedState) (msg : FeedMsg)
    (h1 : s.feedItems.length ≤ FEED_MAX_ITEMS) (h2 : s.feedDebateMeta.length ≤ FEED_MAX_ITEMS) :
    (processFeedEvent now s msg).feedItems.length ≤ FEED_MAX_ITEMS ∧
    (processFeedEvent now s msg).feedDebateMeta.length ≤ FEED_MAX_ITEMS := by
  unfold processFeedEvent
  split_ifs <;>
    refine ⟨?_, ?_⟩ <;>
    first
      | exact h1
      | exact h2
      | exact pushFeedItem_length _ _ h1
      | exact rememberDebateMeta_length _ _ _ _ h2
      | (dsimp only; rw [List.length_set]; exact h1)

theorem fold_bounds (now : String) (events : List FeedMsg) :
    ∀ s : FeedState, s.feedItems.length ≤ FEED_MAX_ITEMS →
    s.feedDebateMeta.length ≤ FEED_MAX_ITEMS →
    (events.foldl (processFeedEvent now) s).feedItems.length ≤ FEED_MAX_ITEMS ∧
    (events.foldl (processFeedEvent now) s).feedDebateMeta.length ≤ FEED_MAX_ITEMS := by
  induction events with
  | nil => intro s h1 h2; exact ⟨h1, h2⟩
  | cons e rest ih =>
    intro s h1 h2
    rw [List.foldl_cons]
    obtain ⟨g1, g2⟩ := processFeedEvent_bounds now s e h1 h2
    exact ih _ g1 g2

theorem pushFeedItem_evicts (l : List FeedItem) (x : FeedItem)
    (h : l.length = FEED_MAX_ITEMS) : pushFeedItem l x = l.drop 1 ++ [x] := by
  simp only [pushFeedItem]
  rw [if_pos (by simp [h, FEED_MAX_ITEMS])]
  rw [List.drop_append_of_le_length (by simp [h, FEED_MAX_ITEMS])]
  congr 1
  simp [h]

theorem rememberDebateMeta_evicts (m : List (Nat × DebateMeta)) (d : Nat) (t c : String)
    (hd : d ≠ 0) (hfresh : m.any (fun p => p.fst == d) = false)
    (h : m.length = FEED_MAX_ITEMS) :
    rememberDebateMeta m (some d) t c = m.drop 1 ++ [(d, ⟨jsOr t "", jsOr c "default"⟩)] := by
  have hnone : metaLookup m d = none := by
    unfold metaLookup
    have hf : m.find? (fun p => p.fst == d) = none := by
      rw [List.find?_eq_none]
      intro x hx hb
      have hany : m.any (fun p => p.fst == d) = true := List.any_eq_true.mpr ⟨x, hx, hb⟩
      rw [hfresh] at hany
      exact absurd hany (by simp)
    rw [hf]
    rfl
  dsimp only [rememberDebateMeta]
  rw [if_neg hd, hnone]
  rw [if_neg (fun hh : (m.any fun p => p.1 == d) = true => by
    rw [hfresh] at hh; exact absurd hh (by simp))]
  rw [if_pos (by simp [h, FEED_MAX_ITEMS])]
  rw [List.drop_append_of_le_length (by simp [h, FEED_MAX_ITEMS])]
  simp [jsOr]

/-- C4: after arbitrarily many feed events from startup, `feedItems` never
exceeds 200 entries and neither does `feedDebateMeta`; pushing onto a full
feed list evicts the front (oldest-inserted) item, and inserting a fresh room
into a full metadata map evicts the front (oldest-inserted) entry — both
evictions are in insertion order. -/
theorem c4_capacity_bounds (now : String) (events : List FeedMsg) (l : List FeedItem)
    (x : FeedItem) (m : List (Nat × DebateMeta)) (d : Nat) (t c : String)
    (hl : l.length = FEED_MAX_ITEMS) (hm : m.length = FEED_MAX_ITEMS) (hd : d ≠ 0)
    (hfresh : m.any (fun p => p.fst == d) = false) :
    ((events.foldl (processFeedEvent now) initFeedState).feedItems.length ≤ FEED_MAX_ITEMS) ∧
    ((events.foldl (processFeedEvent now) initFeedState).feedDebateMeta.length ≤
      FEED_MAX_ITEMS) ∧
    (pushFeedItem l x = l.drop 1 ++ [x]) ∧
    (rememberDebateMeta m (some d) t c = m.drop 1 ++ [(d, ⟨jsOr t "", jsOr c "default"⟩)]) :=
  ⟨(fold_bounds now events initFeedState (by simp [initFeedState]) (by simp [initFeedState])).1,
   (fold_bounds now events initFeedState (by simp [initFeedState]) (by simp [initFeedState])).2,
   pushFeedItem_evicts l x hl,
   rememberDebateMeta_evicts m d t c hd hfresh hm⟩

/-- C4 witness: the capacity theorem applied to a concrete event list, a full
200-item feed list and a full 200-entry metadata map. -/
theorem c4_capacity_bounds_witness :
    ((([exStartMsg] : List FeedMsg).foldl (processFeedEvent "t")
      initFeedState).feedItems.length ≤ FEED_MAX_ITEMS) ∧
    ((([exStartMsg] : List FeedMsg).foldl (processFeedEvent "t")
      initFeedState).feedDebateMeta.length ≤ FEED_MAX_ITEMS) ∧
    (pushFeedItem (List.replicate 200 exItem) exItem =
      (List.replicate 200 exItem).drop 1 ++ [exItem]) ∧
    (rememberDebateMeta (List.replicate 200 (1, exMeta)) (some 2) "tt" "cc" =
      (List.replicate 200 (1, exMeta)).drop 1 ++ [(2, ⟨jsOr "tt" "", jsOr "cc" "default"⟩)]) :=
  c4_capacity_bounds "t" [exStartMsg] (List.replicate 200 exItem) exItem
    (List.replicate 200 (1, exMeta)) 2 "tt" "cc" (by simp [FEED_MAX_ITEMS])
    (by simp [FEED_MAX_ITEMS]) (by decide) (by decide)

/-! ## Claim C5 -/

theorem connInv_connect (f : Bool) (s : FeedConn) (h : ConnInv s) :
    ConnInv (connectFeedWs f s) := by
  obtain ⟨h1, h2, h3⟩ := h
  unfold connectFeedWs
  split_ifs with hc
  · exact ⟨h1, h2, h3⟩
  · refine ⟨?_, Or.inl rfl, ?_⟩
    · cases hcur : s.cur with
      | none =>
        rw [hcur] at h1
        simp [hcur, h1]
      | some c0 =>
        rw [hcur] at h1
        simp [hcur, h1, List.erase_cons_head]
    · intro ht
      exact absurd rfl ht

theorem connInv_step (s : FeedConn) (e : ConnEvent) (h : ConnInv s) :
    ConnInv (stepFeedConn s e) := by
  obtain ⟨h1, h2, h3⟩ := h
  cases e with
  | connect f => exact connInv_connect f s ⟨h1, h2, h3⟩
  | socketError sid =>
    dsimp only [stepFeedConn]
    by_cases hc : s.cur = some sid
    · rw [if_pos hc]
      exact ⟨h1, h2, h3⟩
    · rw [if_neg hc]
      exact ⟨h1, h2, h3⟩
  | socketClosed sid =>
    dsimp only [stepFeedConn]
    by_cases hc : s.cur = some sid
    · rw [if_pos hc]
      have ht : s.timers = [] := by
        by_cases htt : s.timers = []
        · exact htt
        · rw [h3 htt] at hc
          cases hc
      refine ⟨?_, ?_, fun _ => rfl⟩
      · dsimp only
        rw [hc] at h1
        simp [h1, List.erase_cons_head]
      · dsimp only
        rw [ht]
        by_cases hr : s.shouldRun = true
        · rw [if_pos hr]
          right
          rfl
        · rw [if_neg hr]
          left
          rfl
    · rw [if_neg hc]
      refine ⟨?_, h2, fun ht => h3 ht⟩
      cases hcur : s.cur with
      | none =>
        rw [hcur] at h1
        dsimp only
        simp [hcur, h1]
      | some c0 =>
        rw [hcur] at h1
        have hne : (c0 == sid) = false := by
          simp only [beq_eq_false_iff_ne, ne_eq]
          intro hcc
          exact hc (by rw [hcur, hcc])
        dsimp only
        simp [hcur, h1, List.erase_cons, hne]
  | timerFire =>
    dsimp only [stepFeedConn]
    cases htm : s.timers with
    | nil => exact ⟨h1, h2, h3⟩
    | cons d rest =>
      have h2' : s.timers = [FEED_RECONNECT_MS] := by
        rcases h2 with h2 | h2
        · rw [h2] at htm
          cases htm
        · exact h2
      rw [htm] at h2'
      injection h2' with hd2 hrest
      exact connInv_connect false { s with timers := rest }
        ⟨h1, Or.inl hrest, fun ht => absurd hrest ht⟩
  | cancel => exact ⟨h1, h2, h3⟩

theorem connInv_fold (evs : List ConnEvent) :
    ∀ s : FeedConn, ConnInv s → ConnInv (evs.foldl stepFeedConn s) := by
  induction evs with
  | nil => intro s h; exact h
  | cons e rest ih =>
    intro s h
    rw [List.foldl_cons]
    exact ih _ (connInv_step s e h)

theorem connInv_init : ConnInv initFeedConn := ⟨rfl, Or.inl rfl, fun ht => absurd rfl ht⟩

theorem noSched_step (s : FeedConn) (e : ConnEvent)
    (h1 : s.shouldRun = false) (h2 : s.timers = []) :
    (stepFeedConn s e).shouldRun = false ∧ (stepFeedConn s e).timers = [] := by
  cases e with
  | connect f =>
    dsimp only [stepFeedConn]
    unfold connectFeedWs
    split_ifs with hc
    · exact ⟨h1, h2⟩
    · exact ⟨h1, rfl⟩
  | socketError sid =>
    dsimp only [stepFeedConn]
    by_cases hc : s.cur = some sid
    · rw [if_pos hc]
      exact ⟨h1, h2⟩
    · rw [if_neg hc]
      exact ⟨h1, h2⟩
  | socketClosed sid =>
    dsimp only [stepFeedConn]
    by_cases hc : s.cur = some sid
    · rw [if_pos hc]
      refine ⟨h1, ?_⟩
      dsimp only
      rw [h1, h2]
      simp
    · rw [if_neg hc]
      exact ⟨h1, h2⟩
  | timerFire =>
    dsimp only [stepFeedConn]
    rw [h2]
    exact ⟨h1, h2⟩
  | cancel => exact ⟨rfl, h2⟩

theorem noSched_fold (evs : List ConnEvent) :
    ∀ s : FeedConn, s.shouldRun = false → s.timers = [] →
    (evs.foldl stepFeedConn s).timers = [] := by
  induction evs with
  | nil => intro s _ h2; exact h2
  | cons e rest ih =>
    intro s h1 h2
    rw [List.foldl_cons]
    obtain ⟨g1, g2⟩ := noSched_step s e h1 h2
    exact ih _ g1 g2

/-- C5: from any reachable connection-manager state with a live connection
`c` and no caller cancellation, (a) every reachable state has at most one
live socket and at most one pending reconnect timer, every pending delay
being the fixed 3000 ms; (b) the transport closing schedules exactly one
reconnect (`[3000]`); (c) a second close event arriving before the delay
elapses leaves that single timer unchanged; (d) a connect request while a
connection is open or connecting is a no-op; (e) the timer firing re-issues
exactly one connection to the same feed target and clears the timer; and
(f) after caller cancellation (clearing `feedWsShouldRun`) no subsequent
event ever schedules a reconnect. -/
theorem c5_reconnect_single_flight (evs evs2 evs3 : List ConnEvent) (c sid : Nat)
    (h1 : (evs.foldl stepFeedConn initFeedConn).cur = some c)
    (h2 : (evs.foldl stepFeedConn initFeedConn).shouldRun = true) :
    ((evs3.foldl stepFeedConn initFeedConn).live.length ≤ 1 ∧
     (evs3.foldl stepFeedConn initFeedConn).timers.length ≤ 1 ∧
     (∀ dl ∈ (evs3.foldl stepFeedConn initFeedConn).timers, dl = FEED_RECONNECT_MS)) ∧
    (evs.foldl stepFeedConn initFeedConn).live = [c] ∧
    (evs.foldl stepFeedConn initFeedConn).timers = [] ∧
    (stepFeedConn (evs.foldl stepFeedConn initFeedConn) (.socketClosed c)).timers =
      [FEED_RECONNECT_MS] ∧
    (stepFeedConn (stepFeedConn (evs.foldl stepFeedConn initFeedConn) (.socketClosed c))
      (.socketClosed sid)).timers = [FEED_RECONNECT_MS] ∧
    ((evs.foldl stepFeedConn initFeedConn).closing = false →
      stepFeedConn (evs.foldl stepFeedConn initFeedConn) (.connect false) =
        evs.foldl stepFeedConn initFeedConn) ∧
    (stepFeedConn (stepFeedConn (evs.foldl stepFeedConn initFeedConn) (.socketClosed c))
      .timerFire).cur = some (evs.foldl stepFeedConn initFeedConn).nextId ∧
    (stepFeedConn (stepFeedConn (evs.foldl stepFeedConn initFeedConn) (.socketClosed c))
      .timerFire).live = [(evs.foldl stepFeedConn initFeedConn).nextId] ∧
    (stepFeedConn (stepFeedConn (evs.foldl stepFeedConn initFeedConn) (.socketClosed c))
      .timerFire).timers = [] ∧
    (evs2.foldl stepFeedConn
      (stepFeedConn (evs.foldl stepFeedConn initFeedConn) .cancel)).timers = [] := by
  obtain ⟨g1, g2, g3⟩ := connInv_fold evs initFeedConn connInv_init
  obtain ⟨j1, j2, j3⟩ := connInv_fold evs3 initFeedConn connInv_init
  set s := evs.foldl stepFeedConn initFeedConn with hs
  rw [h1] at g1
  have ht : s.timers = [] := by
    by_cases htt : s.timers = []
    · exact htt
    · rw [g3 htt] at h1
      cases h1
  have e1 : stepFeedConn s (.socketClosed c) =
      { s with cur := none, closing := false, live := [],
               timers := [FEED_RECONNECT_MS] } := by
    dsimp only [stepFeedConn]
    rw [if_pos h1, h2, ht, g1]
    simp [List.erase_cons_head]
  refine ⟨⟨?_, ?_, ?_⟩, g1, ht, ?_, ?_, ?_, ?_, ?_, ?_, ?_⟩
  · cases hcur : (evs3.foldl stepFeedConn initFeedConn).cur with
    | none => rw [hcur] at j1; simp [j1]
    | some c0 => rw [hcur] at j1; simp [j1]
  · rcases j2 with j2 | j2 <;> simp [j2]
  · intro dl hdl
    rcases j2 with j2 | j2 <;> rw [j2] at hdl
    · cases hdl
    · simpa using hdl
  · rw [e1]
  · rw [e1]
    dsimp only [stepFeedConn]
    rw [if_neg (by simp)]
  · intro hclosing
    dsimp only [stepFeedConn]
    unfold connectFeedWs
    rw [if_pos ⟨rfl, by rw [h1]; simp, hclosing⟩]
  · rw [e1]
    dsimp only [stepFeedConn]
    unfold connectFeedWs
    rw [if_neg (by simp)]
  · rw [e1]
    dsimp only [stepFeedConn]
    unfold connectFeedWs
    rw [if_neg (by simp)]
    rfl
  · rw [e1]
    dsimp only [stepFeedConn]
    unfold connectFeedWs
    rw [if_neg (by simp)]
  · exact noSched_fold evs2 (stepFeedConn s .cancel) rfl ht

/-- C5 witness: the reconnect theorem applied to the trace that opens the
initial connection (socket 0), with a stray close for socket 5 and a
post-cancellation close of socket 0. -/
theorem c5_reconnect_single_flight_witness :
    ((([ConnEvent.connect true, ConnEvent.socketClosed 0] : List ConnEvent).foldl stepFeedConn
        initFeedConn).live.length ≤ 1 ∧
     (([ConnEvent.connect true, ConnEvent.socketClosed 0] : List ConnEvent).foldl stepFeedConn
        initFeedConn).timers.length ≤ 1 ∧
     (∀ dl ∈ (([ConnEvent.connect true, ConnEvent.socketClosed 0] : List ConnEvent).foldl
        stepFeedConn initFeedConn).timers, dl = FEED_RECONNECT_MS)) ∧
    (([ConnEvent.connect true] : List ConnEvent).foldl stepFeedConn initFeedConn).live = [0] ∧
    (([ConnEvent.connect true] : List ConnEvent).foldl stepFeedConn initFeedConn).timers = [] ∧
    (stepFeedConn (([ConnEvent.connect true] : List ConnEvent).foldl stepFeedConn initFeedConn)
      (.socketClosed 0)).timers = [FEED_RECONNECT_MS] ∧
    (stepFeedConn (stepFeedConn (([ConnEvent.connect true] : List ConnEvent).foldl stepFeedConn
        initFeedConn) (.socketClosed 0)) (.socketClosed 5)).timers = [FEED_RECONNECT_MS] ∧
    ((([ConnEvent.connect true] : List ConnEvent).foldl stepFeedConn initFeedConn).closing =
        false →
      stepFeedConn (([ConnEvent.connect true] : List ConnEvent).foldl stepFeedConn initFeedConn)
        (.connect false) =
        ([ConnEvent.connect true] : List ConnEvent).foldl stepFeedConn initFeedConn) ∧
    (stepFeedConn (stepFeedConn (([ConnEvent.connect true] : List ConnEvent).foldl stepFeedConn
        initFeedConn) (.socketClosed 0)) .timerFire).cur =
      some (([ConnEvent.connect true] : List ConnEvent).foldl stepFeedConn initFeedConn).nextId ∧
    (stepFeedConn (stepFeedConn (([ConnEvent.connect true] : List ConnEvent).foldl stepFeedConn
        initFeedConn) (.socketClosed 0)) .timerFire).live =
      [(([ConnEvent.connect true] : List ConnEvent).foldl stepFeedConn initFeedConn).nextId] ∧
    (stepFeedConn (stepFeedConn (([ConnEvent.connect true] : List ConnEvent).foldl stepFeedConn
        initFeedConn) (.socketClosed 0)) .timerFire).timers = [] ∧
    (([ConnEvent.socketClosed 0] : List ConnEvent).foldl stepFeedConn
      (stepFeedConn (([ConnEvent.connect true] : List ConnEvent).foldl stepFeedConn initFeedConn)
        .cancel)).timers = [] :=
  c5_reconnect_single_flight [ConnEvent.connect true] [ConnEvent.socketClosed 0]
    [ConnEvent.connect true, ConnEvent.socketClosed 0] 0 5 (by decide) (by decide)

/-! ## Claim C6 -/

/-- C6: refuted for the room channel — the room stream's `onmessage` parses
with no `try`/`catch` (app.js 266-268), so a frame whose payload fails
`JSON.parse` (modelled as `none`) makes the handler throw rather than drop
the message silently. -/
theorem c6_room_parse_throws : roomOnMessage initRoomView none = Except.error () := rfl

/-- C6 (amended): a malformed frame on the global feed channel is dropped
silently — the handler returns normally and the state (transcript, feed list,
loop state) is unchanged.  On the room channel the parse exception propagates
out of the handler (it throws), but it throws before any mutation, so the
effective state is also unchanged and the subscription itself is not failed
or closed. -/
theorem c6_malformed_frame_dropped : ∀ (now : String) (s : FeedState) (rs : RoomView),
    feedOnMessage now s none = s ∧
    roomOnMessage rs none = Except.error () ∧
    roomOnMessageState rs none = rs := by
  intro now s rs
  exact ⟨rfl, rfl, rfl⟩

/-! ## Claim C7 -/

/-- C7: refuted as stated — a push `loop_status` with `status = "debating"`
sets the bar phase to `debating`; a pull snapshot applied afterwards (even
one describing an earlier observation, here a paused loop) overwrites it with
`paused`.  The resulting phase equals the pull's value, not "the push
update's value" as the claim asserts. -/
theorem c7_pull_overwrites_push :
    (processFeedEvent "t0" initFeedState exPushMsg).loopBar = some "debating" ∧
    (syncLoopStatus (processFeedEvent "t0" initFeedState exPushMsg) exPausedSnap).loopBar =
      some "paused" ∧
    (some "paused" : Option String) ≠ some "debating" := by
  refine ⟨by decide, by decide, by decide⟩

/-- C7 (amended): the merge rule is that the freshest update by wall-clock
arrival order wins, regardless of source and of the events' own observation
times: a pull snapshot always sets the bar to its derived phase, independent
of the previous bar value, and any phase-bearing status message (`debating`,
`cooldown`, or a non-true `running`) sets the bar to its own phase,
independent of the previous bar value.  Consequently a pull applied after a
push overwrites the push, not the other way round. -/
theorem c7_last_arrival_wins (s : FeedState) (snap : LoopSnapshot) (b : Option String)
    (st : Option String) (r : Option Bool) (h : phaseOfMsg st r ≠ none) :
    (syncLoopStatus s snap).loopBar = some (pullStatus snap) ∧
    updateLoopStatusBar b st r = phaseOfMsg st r := by
  constructor
  · dsimp only [syncLoopStatus]
    unfold updateLoopStatusBar pullStatus
    by_cases hr : snap.running
    · by_cases htp : truthyO snap.current_topic = true
      · simp [hr, htp]
      · simp [hr, htp]
    · simp [hr]
  · unfold phaseOfMsg at h
    unfold updateLoopStatusBar phaseOfMsg
    split_ifs at h ⊢ <;> first | rfl | exact absurd rfl h

/-- C7 witness: the amended theorem applied to the initial state, the paused
snapshot and a concrete phase-bearing message. -/
theorem c7_last_arrival_wins_witness :
    (syncLoopStatus initFeedState exPausedSnap).loopBar = some (pullStatus exPausedSnap) ∧
    updateLoopStatusBar (some "debating") (some "other") (some false) =
      phaseOfMsg (some "other") (some false) :=
  c7_last_arrival_wins initFeedState exPausedSnap (some "debating") (some "other") (some false)
    (by decide)

/-! ## Claim C8 -/

/-- Bridging the spec's rule table to a right-fold of first-match tests. -/
theorem find?_rules_eq (t : String) : ∀ rules : List (String × List String),
    ((rules.find? (fun r => r.2.any (fun k => strHasSub t k))).map Prod.fst).getD "default" =
    rules.foldr (fun r acc => if r.2.any (fun k => strHasSub t k) then r.1 else acc)
      "default" := by
  intro rules
  induction rules with
  | nil => rfl
  | cons r rest ih =>
    rw [List.find?_cons]
    cases hp : r.2.any (fun k => strHasSub t k) with
    | false =>
      simp only [hp, List.foldr_cons]
      rw [if_neg (by simp)]
      exact ih
    | true =>
      simp only [hp, List.foldr_cons]
      rw [if_pos trivial]
      simp

/-- C8: category inference is a deterministic pure function of the topic
string, equal to first-match keyword lookup over the fixed priority table
`breaking` (prefix marker) > `conspiracy` > `technical` > `strategy` >
`prediction` > `historical`, with no match falling to `default`; calling it
twice on the same topic yields the same category. -/
theorem c8_category_inference : ∀ topic : String,
    inferFeedCategory topic "default" = specInferCategory topic ∧
    inferFeedCategory topic "default" = inferFeedCategory topic "default" := by
  intro topic
  refine ⟨?_, rfl⟩
  simp only [inferFeedCategory, specInferCategory]
  by_cases h0 : normalizedTopic topic = ""
  · simp [h0]
  · rw [if_neg h0, if_neg h0]
    by_cases hbr : strStarts (normalizedTopic topic) "breaking:" = true
    · rw [if_pos hbr, if_pos hbr]
    · rw [if_neg hbr, if_neg hbr]
      rw [find?_rules_eq]
      simp [categoryRules, List.any_cons, List.any_nil, Bool.or_assoc]

/-! ## Claim C9 -/

/-- C9: refuted as stated — when exactly one side normalizes to empty, the
claim's formula matches (the empty truncated prefix is a substring of
anything) but `topicsMatch` returns `false`: at `a = "x"`, `b = ""` the code
yields `false` while the claim's characterisation yields `true`. -/
theorem c9_empty_side_mismatch :
    topicsMatch "x" "" = false ∧ specTopicsMatchClaim "x" "" = true := by
  decide

/-- C9 (amended): two topics are treated as the same debate exactly when both
normalize to a non-empty string and, after normalizing, either they are equal
or the 80-character truncated prefix of one is a substring of the other.  (A
topic that normalizes to empty matches nothing — not only the both-empty
pair excluded by the original claim.) -/
theorem c9_topics_match_characterisation : ∀ a b : String,
    topicsMatch a b =
      (!(normalizedTopic a == "") && !(normalizedTopic b == "") &&
        (normalizedTopic a == normalizedTopic b ||
         strHasSub (normalizedTopic a) (strTake (normalizedTopic b) 80) ||
         strHasSub (normalizedTopic b) (strTake (normalizedTopic a) 80))) := by
  intro a b
  simp only [topicsMatch]
  by_cases ha : normalizedTopic a = ""
  · rw [if_pos (Or.inl ha)]
    simp [ha]
  · by_cases hb : normalizedTopic b = ""
    · rw [if_pos (Or.inr hb)]
      simp [hb]
    · rw [if_neg (by rintro (h | h) <;> simp_all)]
      simp [ha, hb]

/-! ## Claim C10 -/

/-- C10: refuted by evaluation — after room 7's `debate_start` (inferred
category `default`) and a round-3 conclusion carrying `category:
"technical"`, the metadata cache holds `technical` for room 7, yet rendering
the feed shows the start item with its own frozen `default` category:
`renderFeedItems` reads `item.category`/`item.topic`, never the cache, so
metadata arriving after an item was inserted is not reflected in that item's
rendering. -/
theorem c10_render_ignores_cache :
    metaLookup metaBackfillTrace.feedDebateMeta 7 = some ⟨"rain dance", "technical"⟩ ∧
    (renderFeedItems metaBackfillTrace "all").map FeedCard.category =
      ["technical", "default"] := by
  decide

/-- The round-3 `agent_done` branch dissected (app.js 910-925). -/
theorem processFeedEvent_agent_done (now : String) (s : FeedState) (msg : FeedMsg)
    (htype : msg.type = "agent_done") (hround : msg.round = some 3) :
    processFeedEvent now s msg =
      { s with
        feedDebateMeta := rememberDebateMeta s.feedDebateMeta msg.debate_id
          (agentDoneItem (metaLookupO s.feedDebateMeta msg.debate_id) msg
            (jsOrO msg.timestamp now)).topic
          (agentDoneItem (metaLookupO s.feedDebateMeta msg.debate_id) msg
            (jsOrO msg.timestamp now)).category,
        feedItems := pushFeedItem s.feedItems
          (agentDoneItem (metaLookupO s.feedDebateMeta msg.debate_id) msg
            (jsOrO msg.timestamp now)) } := by
  simp only [processFeedEvent, htype, hround]
  rw [if_neg (by decide : ¬("agent_done" : String) = "loop_status"),
    if_neg (by decide : ¬("agent_done" : String) = "ping"),
    if_neg (by decide : ¬("agent_done" : String) = "debate_start"),
    if_pos ⟨trivial, trivial⟩]

/-- C10 (amended): the per-room cache is updated by every event carrying a
room id — non-empty new topic/category values overwrite the cached ones and
empty ones keep them; feed items *consult the cache when they are
constructed* (a round-3 conclusion's topic falls back to the cached topic and
its category to the cached category before inference); but *rendering* uses
each item's own frozen fields (`item.category`, `item.topic`/`item.content`),
so cache updates after an item's insertion do not change how that item
renders. -/
theorem c10_cache_backfill_at_construction (now : String) (s : FeedState) (msg : FeedMsg)
    (m : List (Nat × DebateMeta)) (d : Nat) (t c : String) (x : FeedItem)
    (htype : msg.type = "agent_done") (hround : msg.round = some 3)
    (hd : d ≠ 0) (hm : m.length ≤ FEED_MAX_ITEMS) :
    (metaLookup (rememberDebateMeta m (some d) t c) d =
      some ⟨jsOr t (jsOr (((metaLookup m d).map DebateMeta.topic).getD "") ""),
            jsOr c (jsOr (((metaLookup m d).map DebateMeta.category).getD "") "default")⟩) ∧
    ((processFeedEvent now s msg).feedItems =
      pushFeedItem s.feedItems
        (agentDoneItem (metaLookupO s.feedDebateMeta msg.debate_id) msg
          (jsOrO msg.timestamp now))) ∧
    ((agentDoneItem (metaLookupO s.feedDebateMeta msg.debate_id) msg
        (jsOrO msg.timestamp now)).topic =
      jsOrO msg.topic (jsOr (((metaLookupO s.feedDebateMeta msg.debate_id).map
        DebateMeta.topic).getD "") "")) ∧
    ((renderFeedItem x).category = jsOr x.category "default") ∧
    ((renderFeedItem x).headline = strTake (jsOr x.topic (jsOrO x.content "")) 140) := by
  refine ⟨metaLookup_remember m d t c hd hm, ?_, rfl, rfl, rfl⟩
  rw [processFeedEvent_agent_done now s msg htype hround]

/-- C10 witness: the amended theorem applied at room 7's conclusion frame
over the initial state and a one-entry metadata map. -/
theorem c10_cache_backfill_at_construction_witness :
    (metaLookup (rememberDebateMeta [(7, exMeta)] (some 7) "T" "C") 7 =
      some ⟨jsOr "T" (jsOr (((metaLookup [(7, exMeta)] 7).map DebateMeta.topic).getD "") ""),
            jsOr "C" (jsOr (((metaLookup [(7, exMeta)] 7).map DebateMeta.category).getD "")
              "default")⟩) ∧
    ((processFeedEvent "t0" initFeedState exDone7Msg).feedItems =
      pushFeedItem initFeedState.feedItems
        (agentDoneItem (metaLookupO initFeedState.feedDebateMeta exDone7Msg.debate_id)
          exDone7Msg (jsOrO exDone7Msg.timestamp "t0"))) ∧
    ((agentDoneItem (metaLookupO initFeedState.feedDebateMeta exDone7Msg.debate_id) exDone7Msg
        (jsOrO exDone7Msg.timestamp "t0")).topic =
      jsOrO exDone7Msg.topic
        (jsOr (((metaLookupO initFeedState.feedDebateMeta exDone7Msg.debate_id).map
          DebateMeta.topic).getD "") "")) ∧
    ((renderFeedItem exItem).category = jsOr exItem.category "default") ∧
    ((renderFeedItem exItem).headline =
      strTake (jsOr exItem.topic (jsOrO exItem.content "")) 140) :=
  c10_cache_backfill_at_construction "t0" initFeedState exDone7Msg [(7, exMeta)] 7 "T" "C"
    exItem rfl rfl (by decide) (by decide)
